import Mathlib

/-!
Shallow embedding of the request-dispatch and error-classification pipeline
of the `gaelib` repository (package `app`, `src/app/request.go` and the
unnamed `app` files), of the form-field builders (`src/v0/forms/fields.go`),
and of the error notifier (`LogError` / `sendErrorByEmail`).

Go errors are modelled as a sum of an already classified `*AppError` and an
arbitrary unclassified error carrying its `Error()` text.  Side effects
(logging, invoking an override handler, writing the default `http.Error`
response) are modelled as explicit event traces.
-/

set_option autoImplicit false

namespace app

/-- The classified error type `*AppError` of the errors collaborator:
an HTTP status `Code` and a human-readable `Message`
(spec §3 ClassifiedError; the `Cause` field is not inspected by any code
under `src/` and is omitted). -/
structure AppError where
  Code : Nat
  Message : String
deriving DecidableEq, Repr

/-- A Go `error` value as seen by `processError` / `LoadData`: either an
already classified `*AppError`, or any other non-nil error abstracted by
its `Error()` string. -/
inductive GoError where
  | app (e : AppError)
  | basic (msg : String)
deriving DecidableEq, Repr

/-- Modelled from the spec: the `Error` constructor of the errors
collaborator (`github.com/ernestokarim/gaelib/v0/errors`, whose source is
not under `src/`; `src/app/request.go` only calls it and asserts
`Error(err).(*AppError)`).  Spec §4.1: if the failure is already a
ClassifiedError it is returned unchanged, otherwise it is wrapped with
`Code = 500` and `Message = failure.describe()`. -/
def ErrorWrap : GoError → AppError
  | .app e => e
  | .basic msg => { Code := 500, Message := msg }

/-- The classification step at the top of `Request.processError`
(`src/app/request.go` lines 114-117):
`e, ok := err.(*AppError); if !ok { e = Error(err).(*AppError) }`. -/
def classify : GoError → AppError
  | .app e => e
  | .basic msg => ErrorWrap (.basic msg)

/-- Observable side effects of `processError` / `ServeHTTP`, in order:
`log e` is the unconditional `e.Log(r.C)` call (structured log plus
operator notification), `invoke c` is the invocation of the registered
override handler for code `c`, and `httpError c` is the default
`http.Error(r.W, "", c)` write. -/
inductive Event where
  | log (e : AppError)
  | invoke (code : Nat)
  | httpError (code : Nat)
deriving DecidableEq, Repr

def Event.isLog : Event → Bool
  | .log _ => true
  | _ => false

def Event.isInvoke : Event → Bool
  | .invoke _ => true
  | _ => false

def Event.isHttpError : Event → Bool
  | .httpError _ => true
  | _ => false

/-- The three process-wide override-handler registrations
(`errHandler`, `notFoundHandler`, `forbiddenHandler`,
`src/app/request.go` lines 17-19).  A registered handler is abstracted by
the error value it returns when invoked on the current request: `none`
means the slot is unregistered (nil), `some r` means a handler is
registered and returns `r` (`processError` only inspects whether `r` is
nil). -/
structure Overrides where
  errHandler : Option (Option GoError)
  notFoundHandler : Option (Option GoError)
  forbiddenHandler : Option (Option GoError)
deriving DecidableEq, Repr

/-- The state with no override handler registered. -/
def noOverrides : Overrides := ⟨none, none, none⟩

/-- Events produced by one `if err := handler(r); err == nil { return }`
block of `processError` followed (on fallthrough) by the final
`http.Error` write.  `code` is the override's own code, `eCode` the
classified code of the error being processed (they coincide whenever the
guard held).  The `none` slot case is unreachable under the guard
`handler != nil` and conservatively falls through to the default write. -/
def overrideEvents (code : Nat) (slot : Option (Option GoError)) (eCode : Nat) :
    List Event :=
  match slot with
  | none => [Event.httpError eCode]
  | some none => [Event.invoke code]
  | some (some _) => [Event.invoke code, Event.httpError eCode]

/-- The `if / else if / else if` chain of `processError`
(`src/app/request.go` lines 120-134) followed by the shared final
`http.Error(r.W, "", e.Code)` on every fallthrough path. -/
def routeTail (ov : Overrides) (c : Nat) : List Event :=
  if c = 500 ∧ ov.errHandler.isSome then
    overrideEvents 500 ov.errHandler c
  else if c = 404 ∧ ov.notFoundHandler.isSome then
    overrideEvents 404 ov.notFoundHandler c
  else if c = 403 ∧ ov.forbiddenHandler.isSome then
    overrideEvents 403 ov.forbiddenHandler c
  else [Event.httpError c]

/-- `Request.processError` (`src/app/request.go` lines 113-135): classify,
log unconditionally, then try the single override whose code matches in
the fixed order 500 / 404 / 403, falling through to
`http.Error(r.W, "", e.Code)` when no override resolves the request. -/
def processError (ov : Overrides) (err : GoError) : List Event :=
  let e := classify err
  Event.log e :: routeTail ov e.Code

/-- The registration slot that `processError` consults for a classified
code (none for codes other than 500/404/403). -/
def slotFor (ov : Overrides) (code : Nat) : Option (Option GoError) :=
  if code = 500 then ov.errHandler
  else if code = 404 then ov.notFoundHandler
  else if code = 403 then ov.forbiddenHandler
  else none

/-- Outcome of one handler invocation `fn(r)`: it either returns normally
(with a nil or non-nil error) or panics; a panic value is abstracted by
its `%s` formatting. -/
inductive HandlerResult where
  | normal (err : Option GoError)
  | panics (msg : String)
deriving DecidableEq, Repr

/-- The synthesized failure of the recovery branch of `Handler.ServeHTTP`:
`Error(fmt.Errorf("panic recovered error: %s", rec))`
(`src/unnamed/part_000` lines 21-26). -/
def panicError (msg : String) : GoError :=
  .basic ("panic recovered error: " ++ msg)

/-- `Handler.ServeHTTP` (`src/unnamed/part_000` lines 14-31): invoke the
handler; a non-nil returned error goes to `processError`; a panic is
recovered by the deferred function, wrapped via `panicError` and also
routed to `processError`.  The function is total: no branch re-raises. -/
def serveHTTP (ov : Overrides) (res : HandlerResult) : List Event :=
  match res with
  | .normal none => []
  | .normal (some err) => processError ov err
  | .panics msg => processError ov (panicError msg)

/-- `b` occurs as a contiguous substring of `a` (executable; used for
`strings.Contains(v.Error(), "schema: invalid path")`). -/
def containsSub (pat : List Char) : List Char → Bool
  | [] => pat.isEmpty
  | c :: rest => pat.isPrefixOf (c :: rest) || containsSub pat rest

/-- `strings.Contains s pat`. -/
def stringContains (s pat : String) : Bool :=
  containsSub pat.toList s.toList

/-- Result of `schemaDecoder.Decode`: nil, a `schema.MultiError`
(a map from field key to sub-error, abstracted as an association list of
key and sub-error text), or some other non-nil error. -/
inductive DecodeErr where
  | multi (entries : List (String × String))
  | other (msg : String)
deriving DecidableEq, Repr

/-- An entry of a `MultiError` whose text contains
`"schema: invalid path"` (an unknown-field entry); these are the entries
`LoadData` deletes. -/
def invalidPathEntry (msg : String) : Bool :=
  stringContains msg "schema: invalid path"

/-- The `Error()` text of a (filtered) `MultiError`.  Go's
`MultiError.Error()` formats its entries in unspecified map order;
modelled as the join of the sub-error texts — no claim inspects this
string, only the nil-ness of the wrapped result. -/
def multiErrMsg (entries : List (String × String)) : String :=
  String.join (entries.map (fun kv => kv.2))

/-- `Request.LoadData` (`src/app/request.go` lines 29-57), parameterised by
the outcomes of its two effectful collaborator calls: `parseFormErr` is
the result of `r.Req.ParseForm()` and `decodeRes` the result of
`schemaDecoder.Decode(data, r.Req.Form)`.  A `MultiError` has its
unknown-field entries deleted; if nothing remains the decode failure is
suppressed (`return nil`), otherwise — and for any non-`MultiError`
failure — the (filtered) error is wrapped by `Error` and returned. -/
def LoadData (parseFormErr : Option String) (decodeRes : Option DecodeErr) :
    Option AppError :=
  match parseFormErr with
  | some m => some (ErrorWrap (.basic m))
  | none =>
    match decodeRes with
    | none => none
    | some (.other m) => some (ErrorWrap (.basic m))
    | some (.multi entries) =>
      let filtered := entries.filter (fun kv => !(invalidPathEntry kv.2))
      if filtered.length = 0 then none
      else some (ErrorWrap (.basic (multiErrMsg filtered)))

/-- Modelled from the spec: the external form decoder's outcome for a
request that is missing a required, correctly-typed field (the decoder,
`gorilla/schema`, is not under `src/`).  Spec §8: such a request "yields a
decoding error" — a genuine binding error, i.e. a `MultiError` entry that
is not an unknown-field (`"schema: invalid path"`) entry. -/
def missingFieldDecode (key : String) : DecodeErr :=
  .multi [(key, "schema: required field missing")]

/-- `Request.Path` (`src/app/request.go` lines 79-86): the URL path with
the raw query appended directly (no separator) when the query is
non-empty. -/
def pathOf (urlPath rawQuery : String) : String :=
  if 0 < rawQuery.length then urlPath ++ rawQuery else urlPath

/-- Observable effects of `sendErrorByEmail` for one admin recipient:
either of the two `c.Errorf` failure logs (template rendering failed,
mail delivery failed), or a successfully sent mail. -/
inductive NotifyEvent where
  | templateFailureLogged (admin : String)
  | mailFailureLogged (admin : String)
  | mailSent (admin : String)
deriving DecidableEq, Repr

/-- The admin recipient an event concerns. -/
def NotifyEvent.admin : NotifyEvent → String
  | .templateFailureLogged a => a
  | .mailFailureLogged a => a
  | .mailSent a => a

/-- The loop body of `sendErrorByEmail` (`src/unnamed/part_001` lines
36-63) for one admin, parameterised by the outcomes of the two
collaborator calls: `tmplRes admin` is the error returned by
`Template(html, ["mails/error"], data)` and `mailRes admin` the error
returned by `mail.SendMail(c, m)` (`none` = nil; the rendered body and
mail fields are irrelevant to the control flow).  Each failure is logged
via `c.Errorf` and ends this iteration with `continue`. -/
def notifyAdmin (tmplRes mailRes : String → Option String) (admin : String) :
    NotifyEvent :=
  match tmplRes admin with
  | some _ => .templateFailureLogged admin
  | none =>
    match mailRes admin with
    | some _ => .mailFailureLogged admin
    | none => .mailSent admin

/-- `sendErrorByEmail` (`src/unnamed/part_001` lines 31-66): in production
(`!appengine.IsDevAppServer()`) it iterates over all configured admin
recipients, attempting the template render and the mail send for each;
it returns no error to its caller. -/
def sendErrorByEmail (isDev : Bool) (admins : List String)
    (tmplRes mailRes : String → Option String) : List NotifyEvent :=
  if isDev then [] else admins.map (notifyAdmin tmplRes mailRes)

end app

namespace forms

/-- The `Control` struct of `src/v0/forms/fields.go` (the `Validations`
slice is not read by `Control.Build` or `SelectField.Build` and is
omitted). -/
structure Control where
  Id : String
  Name : String
  Value : String
  Error : String
  Help : String
  ResetValue : Bool
deriving DecidableEq, Repr

/-- The part of `Control.Build`'s output before the `%%s` placeholder
(`src/v0/forms/fields.go` lines 20-47; the first `fmt.Sprintf` has a fixed
format whose verbs are `%s`, `%%s`, `%s`, `%s`, so its output is the plain
concatenation of the literal segments with `err`, `c.Error`, `c.Help` —
and `c.Id`, `c.Name` in the named branch — spliced in; it is split here
at the surviving `%s` placeholder). -/
def Control.buildPre (c : Control) : String :=
  let err := if c.Error = "" then "" else " error"
  if c.Name = "" then
    "\n\t\t\t<div class=\"control-group" ++ err ++ "\">\n\t\t\t\t"
  else
    "\n\t\t<div class=\"control-group" ++ err ++
      "\">\n\t\t\t<label class=\"control-label\" for=\"" ++ c.Id ++ "\">" ++
      c.Name ++ "</label>\n\t\t\t<div class=\"controls\">\n\t\t\t\t"

/-- The part of `Control.Build`'s output after the `%%s` placeholder. -/
def Control.buildPost (c : Control) : String :=
  if c.Name = "" then
    "\n\t\t\t\t<p class=\"help-block\">" ++ c.Error ++
      "</p>\n\t\t\t\t<p class=\"help-block\">" ++ c.Help ++
      "</p>\n\t\t\t</div>\n\t\t"
  else
    "\n\t\t\t\t<p class=\"help-block\">" ++ c.Error ++
      "</p>\n\t\t\t\t<p class=\"help-block\">" ++ c.Help ++
      "</p>\n\t\t\t</div>\n\t\t</div>\n\t"

/-- `Control.Build` (`src/v0/forms/fields.go` lines 20-47): a div shell
containing a single `%s` placeholder (from the `%%s` in the format) that
the field builders later fill with the control HTML. -/
def Control.Build (c : Control) : String :=
  c.buildPre ++ "%s" ++ c.buildPost

/-- `fmt.Sprintf(format, arg)` restricted to the `%s` verb: the first
`%s` in the format is replaced by `arg`, any later `%s` by
`%!s(MISSING)` (Go's extra-verb marker), all other characters are copied.
The only verb the formats built by this package contain is the single
`%s` placeholder of `Control.Build`. -/
def sprintfS (arg : List Char) : List Char → Bool → List Char
  | [], _ => []
  | [c], _ => [c]
  | c :: c2 :: rest, used =>
    if c = '%' ∧ c2 = 's' then
      (if used then "%!s(MISSING)".toList else arg) ++ sprintfS arg rest true
    else
      c :: sprintfS arg (c2 :: rest) used

/-- `fmt.Sprintf` with one string argument (see `sprintfS`). -/
def goSprintf1 (format arg : String) : String :=
  ⟨sprintfS arg.toList format.toList false⟩

/-- The `ctrl += fmt.Sprintf(" %s=\"%s\"", k, v)` attribute loop.  Go map
iteration order is unspecified; the maps are modelled as association
lists in insertion order. -/
def attrsString (attrs : List (String × String)) : String :=
  attrs.foldl (fun acc kv => acc ++ " " ++ kv.1 ++ "=\"" ++ kv.2 ++ "\"") ""

/-- The `SelectField` struct of `src/v0/forms/fields.go`.  `Class` is an
`Option` because the code distinguishes a nil slice (`f.Class != nil`). -/
structure SelectField where
  Control : Control
  Class : Option (List String)
  Labels : List String
  Values : List String
deriving DecidableEq, Repr

/-- The select tag attribute map of `SelectField.Build` (lines 134-143):
`id` and `name`, plus `class` when the `Class` slice is non-nil. -/
def selectAttrs (f : SelectField) : List (String × String) :=
  [("id", f.Control.Id), ("name", f.Control.Id)] ++
    (match f.Class with
     | none => []
     | some cs => [("class", String.intercalate " " cs)])

/-- The per-option attribute map (lines 158-172): a blank value hides the
option; otherwise the currently selected value is re-selected and the
`value` attribute is set. -/
def optionAttrs (selectedValue value : String) : List (String × String) :=
  if value = "" then [("style", "display: none;")]
  else
    (if selectedValue = value then [("selected", "selected")] else []) ++
      [("value", value)]

/-- One `<option>` tag for the pair `(label, value)` (lines 174-179). -/
def optionHtml (selectedValue : String) (p : String × String) : String :=
  "<option" ++ attrsString (optionAttrs selectedValue p.2) ++ ">" ++ p.1 ++
    "</option>"

/-- The option tags of `SelectField.Build`, one per label/value pair in
order.  The Go loop `for i, label := range f.Labels` reads `f.Values[i]`;
it only runs after the length check, where it visits exactly the zipped
pairs in order. -/
def selectOptions (f : SelectField) : String :=
  String.join ((f.Labels.zip f.Values).map (optionHtml f.Control.Value))

/-- `SelectField.Build` (`src/v0/forms/fields.go` lines 133-186).  The
`panic("labels and values should have the same size")` on the length
mismatch is modelled as `Except.error` with the panic message. -/
def SelectField.Build (f : SelectField) : Except String String :=
  let ctrl := "<select" ++ attrsString (selectAttrs f) ++ ">"
  if f.Labels.length ≠ f.Values.length then
    Except.error "labels and values should have the same size"
  else
    Except.ok (goSprintf1 (f.Control.Build) (ctrl ++ selectOptions f ++ "</select>"))

end forms

/-! ## Helper lemmas -/

/-- `String.append` is the append of the underlying character lists, so it
is associative. -/
theorem strAppend_assoc (x y z : String) : x ++ y ++ z = x ++ (y ++ z) := by
  obtain ⟨lx⟩ := x
  obtain ⟨ly⟩ := y
  obtain ⟨lz⟩ := z
  show String.mk (lx ++ ly ++ lz) = String.mk (lx ++ (ly ++ lz))
  rw [List.append_assoc]

namespace app

/-- The routing chain of `processError` consults exactly the slot whose
code matches the classified code. -/
theorem routeTail_slot (ov : Overrides) (c : Nat) :
    routeTail ov c = overrideEvents c (slotFor ov c) c := by
  obtain ⟨eh, nf, fb⟩ := ov
  by_cases h5 : c = 500
  · subst h5
    cases eh <;> simp [routeTail, slotFor, overrideEvents]
  · by_cases h4 : c = 404
    · subst h4
      cases nf <;> simp [routeTail, slotFor, overrideEvents]
    · by_cases h3 : c = 403
      · subst h3
        cases fb <;> simp [routeTail, slotFor, overrideEvents]
      · simp [routeTail, slotFor, overrideEvents, h5, h4, h3]

/-- `processError` in terms of the consulted slot. -/
theorem processError_eq (ov : Overrides) (err : GoError) :
    processError ov err =
      Event.log (classify err) ::
        overrideEvents (classify err).Code (slotFor ov (classify err).Code)
          (classify err).Code := by
  show Event.log (classify err) :: routeTail ov (classify err).Code = _
  rw [routeTail_slot]

/-! ## Claim theorems -/

/-- **C1**: Every panic raised inside a handler during `ServeHTTP` is
caught at the top-level boundary: `serveHTTP` is total and routes the
panic, wrapped as a failure whose message contains the panic value, to
`processError`; the synthesized failure classifies to code 500, and with
no override registered the request receives the default 500 response (so
a panic with value `"boom"` yields a 500 response and an error message
containing `"boom"`). -/
theorem serveHTTP_panic_recovered (ov : Overrides) (msg : String) :
    serveHTTP ov (HandlerResult.panics msg) = processError ov (panicError msg) ∧
      (classify (panicError msg)).Code = 500 ∧
      (∃ a b : String, (classify (panicError msg)).Message = a ++ msg ++ b) ∧
      serveHTTP noOverrides (HandlerResult.panics msg) =
        [Event.log (AppError.mk 500 ("panic recovered error: " ++ msg)),
          Event.httpError 500] := by
  refine ⟨rfl, rfl, ⟨"panic recovered error: ", "", ?_⟩, rfl⟩
  show "panic recovered error: " ++ msg = "panic recovered error: " ++ msg ++ ""
  rw [String.append_empty]

/-- **C2**: For every non-nil failure processed by `processError`, when no
override handler resolves the request, the response written is the
default `http.Error` response carrying exactly the classified code of the
failure — the `Code` field if the failure is already an `*AppError`,
otherwise 500 from classification. -/
theorem processError_default_status (ov : Overrides) (err : GoError)
    (h : slotFor ov (classify err).Code ≠ some none) :
    (processError ov err).getLast? = some (Event.httpError (classify err).Code) ∧
      (processError ov err).filter Event.isHttpError =
        [Event.httpError (classify err).Code] ∧
      (∀ e : AppError, err = GoError.app e → (classify err).Code = e.Code) ∧
      (∀ m : String, err = GoError.basic m → (classify err).Code = 500) := by
  refine ⟨?_, ?_, fun e he => by rw [he]; rfl, fun m hm => by rw [hm]; rfl⟩ <;>
    · rw [processError_eq]
      cases hs : slotFor ov (classify err).Code with
      | none => rfl
      | some r =>
        cases r with
        | none => exact absurd hs h
        | some f => rfl

/-- Witness for C2 at a concrete unregistered state and unclassified
failure. -/
theorem processError_default_status_witness :
    slotFor noOverrides (classify (GoError.basic "x")).Code ≠ some none ∧
      (processError noOverrides (GoError.basic "x")).getLast? =
        some (Event.httpError 500) :=
  ⟨by decide, (processError_default_status noOverrides (GoError.basic "x")
      (by decide)).1⟩

/-- **C3**: An override handler is invoked only when the classified
error's code exactly matches that override's registered slot (consulted
in the fixed chain order 500, 404, 403 of `processError`), and at most
one override is ever invoked per classified error; an override is never
invoked for a mismatched code. -/
theorem processError_override_match (ov : Overrides) (err : GoError) :
    (∀ c : Nat, Event.invoke c ∈ processError ov err →
        c = (classify err).Code ∧ (slotFor ov c).isSome = true) ∧
      ((processError ov err).filter Event.isInvoke).length ≤ 1 := by
  rw [processError_eq]
  cases hs : slotFor ov (classify err).Code with
  | none =>
    refine ⟨fun c hc => ?_, by simp [overrideEvents, Event.isInvoke]⟩
    simp [overrideEvents] at hc
  | some r =>
    cases r with
    | none =>
      refine ⟨fun c hc => ?_, by simp [overrideEvents, Event.isInvoke]⟩
      simp only [overrideEvents, List.mem_cons, List.mem_singleton] at hc
      rcases hc with hc | hc | hc
      · exact absurd hc (by simp)
      · obtain rfl : c = (classify err).Code := by
          simpa using hc
        exact ⟨rfl, by rw [hs]; rfl⟩
      · exact absurd hc (by simp)
    | some f =>
      refine ⟨fun c hc => ?_, by simp [overrideEvents, Event.isInvoke]⟩
      simp only [overrideEvents, List.mem_cons, List.mem_singleton] at hc
      rcases hc with hc | hc | hc
      · exact absurd hc (by simp)
      · obtain rfl : c = (classify err).Code := by
          simpa using hc
        exact ⟨rfl, by rw [hs]; rfl⟩
      · exact absurd hc (by simp)

/-- Witness for C3: a registered 404 override invoked for a classified
404. -/
theorem processError_override_match_witness :
    Event.invoke 404 ∈
        processError (Overrides.mk none (some none) none)
          (GoError.app (AppError.mk 404 "m")) ∧
      (404 = (classify (GoError.app (AppError.mk 404 "m"))).Code ∧
        (slotFor (Overrides.mk none (some none) none) 404).isSome = true) :=
  ⟨by decide, (processError_override_match (Overrides.mk none (some none) none)
      (GoError.app (AppError.mk 404 "m"))).1 404 (by decide)⟩

/-- **C4**: When the matching override handler is registered and itself
returns a non-nil failure, `processError` produces exactly the log, the
single override invocation, and the bare default `http.Error` response
for the original classified code — no second override is attempted. -/
theorem processError_override_fallthrough (ov : Overrides) (err : GoError)
    (f : GoError) (h : slotFor ov (classify err).Code = some (some f)) :
    processError ov err =
      [Event.log (classify err), Event.invoke (classify err).Code,
        Event.httpError (classify err).Code] := by
  rw [processError_eq, h]
  rfl

/-- Witness for C4: a failing 500 override falls through to the bare 500
response. -/
theorem processError_override_fallthrough_witness :
    slotFor (Overrides.mk (some (some (GoError.basic "f"))) none none)
        (classify (GoError.basic "x")).Code = some (some (GoError.basic "f")) ∧
      processError (Overrides.mk (some (some (GoError.basic "f"))) none none)
          (GoError.basic "x") =
        [Event.log (AppError.mk 500 "x"), Event.invoke 500,
          Event.httpError 500] :=
  ⟨by decide, processError_override_fallthrough
      (Overrides.mk (some (some (GoError.basic "f"))) none none)
      (GoError.basic "x") (GoError.basic "f") (by decide)⟩

/-- **C5**: Every classified error handled by `processError` is logged
(the `e.Log(r.C)` notification path) exactly once, and the log happens
unconditionally before the routing decision, regardless of which branch
resolves the request. -/
theorem processError_logs_once (ov : Overrides) (err : GoError) :
    (processError ov err).head? = some (Event.log (classify err)) ∧
      (processError ov err).filter Event.isLog = [Event.log (classify err)] := by
  rw [processError_eq]
  cases hs : slotFor ov (classify err).Code with
  | none => exact ⟨rfl, rfl⟩
  | some r => cases r <;> exact ⟨rfl, rfl⟩

/-- **C6**: Classification is idempotent: a failure that is already a
classified `*AppError` is returned unchanged, so
`classify (classify x) = classify x` for every failure `x`. -/
theorem classify_idempotent :
    ∀ x : GoError, classify (GoError.app (classify x)) = classify x ∧
      (∀ e : AppError, classify (GoError.app e) = e) := by
  intro x
  exact ⟨by cases x <;> rfl, fun e => rfl⟩

/-- **C10**: `Request.Path` returns the URL path with the raw query
string concatenated directly onto it (no `?` separator) when the query is
non-empty, and the bare URL path when the query is empty. -/
theorem path_concats_query (p q : String) :
    (q ≠ "" → pathOf p q = p ++ q) ∧ (q = "" → pathOf p q = p) := by
  constructor
  · intro h
    have hq : 0 < q.length := by
      obtain ⟨data⟩ := q
      cases data with
      | nil => exact absurd rfl h
      | cons c cs => simp [String.length]
    simp only [pathOf]
    rw [if_pos hq]
  · intro h
    subst h
    rfl

/-- Witness for C10 at a non-empty and at an empty query. -/
theorem path_concats_query_witness :
    pathOf "/a" "b=1" = "/a" ++ "b=1" ∧ pathOf "/a" "" = "/a" :=
  ⟨(path_concats_query "/a" "b=1").1 (by decide),
    (path_concats_query "/a" "").2 rfl⟩

/-- **C7**: A decode failure that is a `MultiError` containing only
unknown-field entries (text containing `"schema: invalid path"`) is
suppressed by `LoadData` (it returns nil); a `MultiError` containing any
other kind of entry yields a classified error, and so does the decode
failure for a request missing a required, correctly-typed field. -/
theorem loadData_filters_unknown_fields (entries : List (String × String)) :
    ((∀ kv ∈ entries, invalidPathEntry kv.2 = true) →
        LoadData none (some (DecodeErr.multi entries)) = none) ∧
      ((∃ kv ∈ entries, invalidPathEntry kv.2 = false) →
        ∃ e, LoadData none (some (DecodeErr.multi entries)) = some e) ∧
      (∀ key : String,
        ∃ e, LoadData none (some (missingFieldDecode key)) = some e) := by
  refine ⟨fun h => ?_, fun h => ?_, fun key => ?_⟩
  · have hf : entries.filter (fun kv => !(invalidPathEntry kv.2)) = [] := by
      rw [List.filter_eq_nil_iff]
      intro a ha
      simp [h a ha]
    simp [LoadData, hf]
  · obtain ⟨kv, hmem, hfalse⟩ := h
    have hmemf : kv ∈ entries.filter (fun kv => !(invalidPathEntry kv.2)) :=
      List.mem_filter.mpr ⟨hmem, by simp [hfalse]⟩
    have hlen : ¬(entries.filter (fun kv => !(invalidPathEntry kv.2))).length = 0 := by
      intro h0
      rw [List.length_eq_zero] at h0
      rw [h0] at hmemf
      exact absurd hmemf (List.not_mem_nil kv)
    refine ⟨ErrorWrap (GoError.basic (multiErrMsg
        (entries.filter (fun kv => !(invalidPathEntry kv.2))))), ?_⟩
    simp [LoadData, hlen]
  · have hmsg : invalidPathEntry "schema: required field missing" = false := by
      decide
    refine ⟨ErrorWrap (GoError.basic
        (multiErrMsg [(key, "schema: required field missing")])), ?_⟩
    simp [LoadData, missingFieldDecode, hmsg]

/-- Witness for C7: an invalid-path-only `MultiError` is suppressed and a
mixed `MultiError` is surfaced. -/
theorem loadData_filters_unknown_fields_witness :
    LoadData none (some (DecodeErr.multi [("a", "x schema: invalid path y")]))
        = none ∧
      ∃ e, LoadData none
          (some (DecodeErr.multi
            [("a", "x schema: invalid path y"), ("b", "conversion error")]))
        = some e :=
  ⟨(loadData_filters_unknown_fields [("a", "x schema: invalid path y")]).1
      (by decide),
    (loadData_filters_unknown_fields
        [("a", "x schema: invalid path y"), ("b", "conversion error")]).2.1
      (by decide)⟩

/-- **C8**: In the notifier path (`sendErrorByEmail` in production), every
failure (template rendering or mail delivery for a recipient) is
swallowed and logged locally, processing continues with the remaining
recipients — there is exactly one attempt per configured admin, in order,
regardless of other recipients' failures — and no notifier failure is
surfaced to the requester or retried. -/
theorem sendErrorByEmail_best_effort (admins : List String)
    (tmplRes mailRes : String → Option String) :
    (sendErrorByEmail false admins tmplRes mailRes).map NotifyEvent.admin
        = admins ∧
      (sendErrorByEmail false admins tmplRes mailRes).length = admins.length ∧
      (∀ a ∈ admins, tmplRes a ≠ none →
        NotifyEvent.templateFailureLogged a ∈
          sendErrorByEmail false admins tmplRes mailRes) ∧
      (∀ a ∈ admins, tmplRes a = none → mailRes a ≠ none →
        NotifyEvent.mailFailureLogged a ∈
          sendErrorByEmail false admins tmplRes mailRes) := by
  have hadm : ∀ a : String,
      NotifyEvent.admin (notifyAdmin tmplRes mailRes a) = a := by
    intro a
    unfold notifyAdmin
    cases tmplRes a with
    | some e => rfl
    | none =>
      cases mailRes a with
      | some e => rfl
      | none => rfl
  have hsend : sendErrorByEmail false admins tmplRes mailRes
      = admins.map (notifyAdmin tmplRes mailRes) := rfl
  refine ⟨?_, ?_, fun a ha ht => ?_, fun a ha ht hm => ?_⟩
  · rw [hsend, List.map_map]
    have : NotifyEvent.admin ∘ notifyAdmin tmplRes mailRes = id :=
      funext fun a => hadm a
    rw [this, List.map_id]
  · rw [hsend, List.length_map]
  · have he : notifyAdmin tmplRes mailRes a
        = NotifyEvent.templateFailureLogged a := by
      unfold notifyAdmin
      cases h : tmplRes a with
      | some e => rfl
      | none => exact absurd h ht
    rw [hsend, ← he]
    exact List.mem_map_of_mem _ ha
  · have he : notifyAdmin tmplRes mailRes a
        = NotifyEvent.mailFailureLogged a := by
      unfold notifyAdmin
      rw [ht]
      cases h : mailRes a with
      | some e => rfl
      | none => exact absurd h hm
    rw [hsend, ← he]
    exact List.mem_map_of_mem _ ha

/-- Witness for C8: two admins, the first with a failing template render,
the second with a failing mail delivery; both failures are logged and
both recipients are attempted. -/
theorem sendErrorByEmail_best_effort_witness :
    (sendErrorByEmail false ["x", "y"]
        (fun a => if a = "x" then some "terr" else none)
        (fun a => if a = "y" then some "merr" else none)).map NotifyEvent.admin
        = ["x", "y"] ∧
      NotifyEvent.templateFailureLogged "x" ∈
        sendErrorByEmail false ["x", "y"]
          (fun a => if a = "x" then some "terr" else none)
          (fun a => if a = "y" then some "merr" else none) ∧
      NotifyEvent.mailFailureLogged "y" ∈
        sendErrorByEmail false ["x", "y"]
          (fun a => if a = "x" then some "terr" else none)
          (fun a => if a = "y" then some "merr" else none) :=
  ⟨(sendErrorByEmail_best_effort ["x", "y"]
      (fun a => if a = "x" then some "terr" else none)
      (fun a => if a = "y" then some "merr" else none)).1,
    (sendErrorByEmail_best_effort ["x", "y"]
      (fun a => if a = "x" then some "terr" else none)
      (fun a => if a = "y" then some "merr" else none)).2.2.1 "x"
      (by decide) (by decide),
    (sendErrorByEmail_best_effort ["x", "y"]
      (fun a => if a = "x" then some "terr" else none)
      (fun a => if a = "y" then some "merr" else none)).2.2.2 "y"
      (by decide) (by decide) (by decide)⟩

end app

namespace forms

/-- Substituting into a format list that provably contains a `%s` verb
places the argument somewhere between a prefix and a suffix of the
output. -/
theorem sprintfS_subst (arg : List Char) :
    ∀ A B : List Char,
      ∃ a b : List Char,
        sprintfS arg (A ++ '%' :: 's' :: B) false = a ++ arg ++ b := by
  intro A
  induction A with
  | nil =>
    intro B
    refine ⟨[], sprintfS arg B true, ?_⟩
    simp [sprintfS]
  | cons c A' ih =>
    intro B
    obtain ⟨a, b, hab⟩ := ih B
    cases hA : A' ++ '%' :: 's' :: B with
    | nil => exact absurd hA (by simp)
    | cons c2 rest =>
      by_cases hc : c = '%' ∧ c2 = 's'
      · refine ⟨[], sprintfS arg rest true, ?_⟩
        show sprintfS arg (c :: (A' ++ '%' :: 's' :: B)) false = _
        rw [hA]
        simp [sprintfS, hc.1, hc.2]
      · refine ⟨c :: a, b, ?_⟩
        show sprintfS arg (c :: (A' ++ '%' :: 's' :: B)) false = _
        rw [hA]
        rw [show sprintfS arg (c :: c2 :: rest) false
              = c :: sprintfS arg (c2 :: rest) false from by
            simp [sprintfS, hc]]
        rw [← hA, hab]
        simp

/-- `fmt.Sprintf(f.Control.Build(), ctrl)` places `ctrl` between a prefix
and a suffix of the output (the `Control.Build` format always contains
the `%s` placeholder). -/
theorem goSprintf1_build (c : Control) (arg : String) :
    ∃ pre post : String,
      goSprintf1 (Control.Build c) arg = pre ++ arg ++ post := by
  obtain ⟨a, b, hab⟩ := sprintfS_subst arg.toList (Control.buildPre c).toList
    (Control.buildPost c).toList
  refine ⟨⟨a⟩, ⟨b⟩, ?_⟩
  have hl : (Control.Build c).toList
      = (Control.buildPre c).toList ++ '%' :: 's' ::
          (Control.buildPost c).toList := by
    show (Control.buildPre c ++ "%s" ++ Control.buildPost c).data = _
    rw [String.data_append, String.data_append]
    rw [show ("%s" : String).data = ['%', 's'] from rfl]
    rw [List.append_assoc]
    rfl
  show String.mk (sprintfS arg.toList (Control.Build c).toList false) = _
  rw [hl, hab]
  rfl

/-- **C9**: `SelectField.Build` panics (modelled as `Except.error` with
the panic message) exactly when `len(Labels) != len(Values)`; when the
lengths are equal the length-check branch is not taken and the returned
HTML contains the option tags — exactly one per label/value pair, in
order — between a prefix and a suffix. -/
theorem selectField_build_spec (f : SelectField) :
    (f.Labels.length ≠ f.Values.length →
        SelectField.Build f
          = Except.error "labels and values should have the same size") ∧
      (f.Labels.length = f.Values.length →
        ((f.Labels.zip f.Values).map (optionHtml f.Control.Value)).length
            = f.Labels.length ∧
          ∃ pre post : String,
            SelectField.Build f
              = Except.ok (pre ++ selectOptions f ++ post)) := by
  constructor
  · intro h
    simp [SelectField.Build, h]
  · intro h
    constructor
    · rw [List.length_map, List.length_zip, h, Nat.min_self]
    · obtain ⟨pre, post, hp⟩ := goSprintf1_build f.Control
        ("<select" ++ attrsString (selectAttrs f) ++ ">" ++ selectOptions f
          ++ "</select>")
      have hB : SelectField.Build f
          = Except.ok (goSprintf1 (Control.Build f.Control)
              ("<select" ++ attrsString (selectAttrs f) ++ ">"
                ++ selectOptions f ++ "</select>")) := by
        simp [SelectField.Build, h]
      refine ⟨pre ++ ("<select" ++ attrsString (selectAttrs f) ++ ">"),
        "</select>" ++ post, ?_⟩
      rw [hB, hp]
      congr 1
      simp only [strAppend_assoc]

/-- Witness for C9: a mismatched field errors with the panic message; a
matched two-option field succeeds with its option tags embedded. -/
theorem selectField_build_spec_witness :
    SelectField.Build
        (SelectField.mk (Control.mk "i" "n" "v" "" "h" false) none ["a"] [])
        = Except.error "labels and values should have the same size" ∧
      ∃ pre post : String,
        SelectField.Build
            (SelectField.mk (Control.mk "i" "" "1" "" "" false) none
              ["a", "b"] ["1", "2"])
          = Except.ok (pre ++ selectOptions
              (SelectField.mk (Control.mk "i" "" "1" "" "" false) none
                ["a", "b"] ["1", "2"]) ++ post) :=
  ⟨(selectField_build_spec
      (SelectField.mk (Control.mk "i" "n" "v" "" "h" false) none ["a"] [])).1
      (by decide),
    ((selectField_build_spec
      (SelectField.mk (Control.mk "i" "" "1" "" "" false) none
        ["a", "b"] ["1", "2"])).2 (by decide)).2⟩

end forms
